import Mathlib

/-!
Verification of the core of `netskope_collector`:
- `NetskopeClient.fetch_events` (src/netskope_collector/netskope_client.py)
- `S3Writer.write_events` and `_crc32_base64` (src/netskope_collector/s3_writer.py)

The HTTP session, the wall clock, the gzip compressor and the S3 service are
external effects; they are embedded as explicit parameters (a list of server
responses, a clock function, a compressor interface, an S3 stub), and the two
Python functions become pure Lean functions over those parameters that return
the full trace of observable actions (requests, emitted records, sleeps,
S3 calls) together with the final outcome.
-/

namespace NetskopeCollector

/-- The `operation` query parameter of a fetch request: the epoch-second
timestamp `int(since.timestamp())` on the first request, the literal
continuation token `"next"` afterwards (netskope_client.py lines 126-129
and 178). -/
inductive Operation where
  | initial (epoch : Int)
  | next
deriving DecidableEq, Repr

/-- The query parameters sent with one `session.get` call:
`{"operation": ..., "index": self.index}`. -/
structure Params where
  operation : Operation
  index : String
deriving DecidableEq, Repr

/-- One answer of the remote server to one `session.get` call, as observed by
`fetch_events` (netskope_client.py lines 138-156):
- `transportError`: `requests.RequestException` raised by `session.get`;
- `rateLimited retryAfter`: HTTP 429, with the integer value of the
  `Retry-After` header when present;
- `httpError status`: a status for which `raise_for_status` raises
  (non-2xx, non-429);
- `ok result waitTime`: HTTP 200 whose JSON body carries
  `result` (`body.get("result", [])`) and `wait_time`
  (`int(body.get("wait_time", 0))`). -/
inductive Response (α : Type) where
  | transportError
  | rateLimited (retryAfter : Option Int)
  | httpError (status : Nat)
  | ok (result : List α) (waitTime : Int)
deriving DecidableEq, Repr

/-- One observable action of the fetch generator, in execution order:
an HTTP request with its parameters, one yielded record, or a `time.sleep`. -/
inductive TraceEv (α : Type) where
  | request (p : Params)
  | emit (r : α)
  | sleep (secs : Int)
deriving DecidableEq, Repr

/-- How one run of the fetch loop ended, mirroring the `break` / `raise`
sites of netskope_client.py lines 138-172, plus `exhausted` for the point
where the modelled response list runs out. -/
inductive Outcome where
  | naturalEnd
  | pageLimit
  | durationLimit
  | transportFail
  | httpRaise (status : Nat)
  | exhausted
deriving DecidableEq, Repr

/-- The `while True` loop of `fetch_events` (netskope_client.py lines
134-178).  `clock k` is the value returned by the `(k+1)`-th call to
`time.time()`; the loop calls `time.time()` once before the loop
(`start_time = clock 0`) and once after each 200 page, so after the
`pc`-th successful page `elapsed = clock pc - clock 0`.  `pageCount` is
`page_count`, `params` the current query parameters.  The responses are
consumed in order, one per `session.get`. -/
def fetchLoop {α : Type} (clock : Nat → Int) (maxPages : Nat)
    (maxDuration : Int) (params : Params) (pageCount : Nat) :
    List (Response α) → List (TraceEv α) × Outcome
  | [] => ([.request params], .exhausted)
  | r :: rest =>
    match r with
    | .transportError => ([.request params], .transportFail)
    | .rateLimited retryAfter =>
      let t := fetchLoop clock maxPages maxDuration params pageCount rest
      (.request params :: .sleep (retryAfter.getD 5) :: t.1, t.2)
    | .httpError status => ([.request params], .httpRaise status)
    | .ok events waitTime =>
      let head : List (TraceEv α) := .request params :: events.map .emit
      let pc := pageCount + 1
      let elapsed := clock pc - clock 0
      if events.isEmpty ∧ waitTime = 0 then (head, .naturalEnd)
      else if pc ≥ maxPages then (head, .pageLimit)
      else if elapsed ≥ maxDuration then (head, .durationLimit)
      else
        let sl : List (TraceEv α) := if waitTime > 0 then [.sleep waitTime] else []
        let t := fetchLoop clock maxPages maxDuration ⟨.next, params.index⟩ pc rest
        (head ++ sl ++ t.1, t.2)

/-- `self.settings.endpoint_paths.get(endpoint)`: first-match lookup in the
category → path map (Python dict keys are unique, so an association list is
faithful). -/
def lookupPath : List (String × String) → String → Option String
  | [], _ => none
  | (k, v) :: rest, category => if k = category then some v else lookupPath rest category

/-- `NetskopeClient.fetch_events` (netskope_client.py lines 85-178):
resolve the category in the path map — raising
`ValueError(f"Unsupported endpoint: ...")` when absent, before any HTTP
request — then run the paginated loop starting from the epoch-seconds
timestamp with `page_count = 0`. -/
def fetch_events {α : Type} (endpointPaths : List (String × String))
    (clock : Nat → Int) (maxPages : Nat) (maxDuration : Int)
    (category : String) (sinceEpoch : Int) (index : String)
    (responses : List (Response α)) :
    Except String (List (TraceEv α) × Outcome) :=
  match lookupPath endpointPaths category with
  | none => .error ("Unsupported endpoint: " ++ category)
  | some _path =>
    .ok (fetchLoop clock maxPages maxDuration ⟨.initial sinceEpoch, index⟩ 0 responses)

/-- The records yielded by a run, in order: the `emit` events of the trace. -/
def emittedRecords {α : Type} (t : List (TraceEv α)) : List α :=
  t.filterMap fun e => match e with
    | .emit r => some r
    | _ => none

/-! ## S3 writer (s3_writer.py) -/

/-- `PART_SIZE = 8 * 1024 * 1024` (s3_writer.py line 32). -/
def PART_SIZE : Nat := 8 * 1024 * 1024

/-- One step of the reflected (IEEE, polynomial `0xEDB88320`) CRC32 bit loop,
as computed by `zlib.crc32`. -/
def crcStep (c : Nat) : Nat :=
  if c % 2 = 1 then (c / 2) ^^^ 0xEDB88320 else c / 2

/-- Fold one input byte into the running CRC32 register. -/
def crc32Byte (c b : Nat) : Nat := crcStep^[8] (c ^^^ (b % 256))

/-- `zlib.crc32(data) & 0xFFFFFFFF` over a byte list. -/
def crc32 (data : List Nat) : Nat :=
  (data.foldl crc32Byte 0xFFFFFFFF) ^^^ 0xFFFFFFFF

/-- The RFC 4648 base64 alphabet, as a character list. -/
def b64Alphabet : List Char :=
  "ABCDEFGHIJKLMNOPQRSTUVWXYZabcdefghijklmnopqrstuvwxyz0123456789+/".toList

/-- The base64 digit for a 6-bit group. -/
def b64Char (n : Nat) : Char := b64Alphabet.getD n 'A'

/-- `base64.b64encode` over a byte list, with `=` padding. -/
def base64Encode : List Nat → List Char
  | [] => []
  | [a] => [b64Char (a / 4), b64Char (a % 4 * 16), '=', '=']
  | [a, b] => [b64Char (a / 4), b64Char (a % 4 * 16 + b / 16), b64Char (b % 16 * 4), '=']
  | a :: b :: c :: rest =>
    b64Char (a / 4) :: b64Char (a % 4 * 16 + b / 16) ::
    b64Char (b % 16 * 4 + c / 64) :: b64Char (c % 64) :: base64Encode rest

/-- Big-endian 4-byte encoding `crc_val.to_bytes(4, "big")`. -/
def toBytes4BE (n : Nat) : List Nat :=
  [n / 2 ^ 24 % 256, n / 2 ^ 16 % 256, n / 2 ^ 8 % 256, n % 256]

/-- `_crc32_base64` (s3_writer.py lines 35-52):
`base64.b64encode((zlib.crc32(data) & 0xFFFFFFFF).to_bytes(4, "big")).decode()`. -/
def crc32Base64 (data : List Nat) : String :=
  String.mk (base64Encode (toBytes4BE (crc32 data)))

/-- The streaming gzip compressor writing into an in-memory buffer
(`io.BytesIO` + `gzip.GzipFile`), abstracted to the four operations
`write_events` performs on it: create a fresh buffer/compressor pair,
write bytes into the compressor, read the buffer position (`buf.tell()`),
and close the compressor and take the buffer's final bytes
(`gz.close(); buf.getvalue()`).  Its laws (how the closed payloads
decompress, how much `close` can add past `tell`) are stated as
hypotheses of the theorems that need them. -/
structure GzWriter where
  σ : Type
  init : σ
  write : σ → List Nat → σ
  tell : σ → Nat
  close : σ → List Nat

/-- Writing a list of byte chunks in order. -/
def GzWriter.writeAll (G : GzWriter) (s : G.σ) (cs : List (List Nat)) : G.σ :=
  cs.foldl G.write s

/-- The per-part dictionary returned by `S3Writer._upload_part`
(s3_writer.py lines 219-224). -/
structure PartInfo where
  partNumber : Nat
  etag : String
  size : Nat
  checksumCRC32 : String
deriving DecidableEq, Repr

/-- One entry of the `MultipartUpload.Parts` list sent to
`complete_multipart_upload` (s3_writer.py lines 158-165). -/
structure CompletedPart where
  partNumber : Nat
  etag : String
  checksumCRC32 : String
deriving DecidableEq, Repr

/-- The projection `{"PartNumber": ..., "ETag": ..., "ChecksumCRC32": ...}`
applied to each uploaded part for the completion call. -/
def toCompleted (p : PartInfo) : CompletedPart :=
  ⟨p.partNumber, p.etag, p.checksumCRC32⟩

/-- The S3 service as seen by `write_events`, with the two calls that can
fail inside the `try` block: `upload_part` (returning an ETag) and
`complete_multipart_upload`.  `ε` is the type of raised exceptions. -/
structure S3Stub (ε : Type) where
  uploadPart : Nat → List Nat → Except ε String
  complete : List CompletedPart → Except ε Unit

/-- One S3 API call issued by `write_events`, in order. -/
inductive S3Call where
  | createMultipart (bucket key : String)
  | uploadPart (partNo : Nat) (payload : List Nat) (checksum : String)
  | complete (parts : List CompletedPart)
  | abort
deriving DecidableEq, Repr

/-- The body of the `try` block of `write_events` (s3_writer.py lines
138-170): the `for ev in events_iter` loop with its size-triggered part
flushes, then the final part upload and the completion call.  Each input
element is `Except.ok r` for a record produced by the iterator, or
`Except.error e` when the iterator (or serialization) raises `e` at that
point.  Returns the S3 calls made inside the block and either the final
`parts` list or the first exception. -/
def writeLoop {ε α : Type} (G : GzWriter) (S3 : S3Stub ε) (ser : α → List Nat)
    (buf : G.σ) (partNo : Nat) (parts : List PartInfo) :
    List (Except ε α) → List S3Call × Except ε (List PartInfo)
  | [] =>
    let payload := G.close buf
    let cs := crc32Base64 payload
    match S3.uploadPart partNo payload with
    | .error e => ([.uploadPart partNo payload cs], .error e)
    | .ok etag =>
      let parts2 := parts ++ [⟨partNo, etag, payload.length, cs⟩]
      let comp := parts2.map toCompleted
      match S3.complete comp with
      | .error e => ([.uploadPart partNo payload cs, .complete comp], .error e)
      | .ok _ => ([.uploadPart partNo payload cs, .complete comp], .ok parts2)
  | ev :: rest =>
    match ev with
    | .error e => ([], .error e)
    | .ok r =>
      let buf2 := G.write buf (ser r ++ [10])
      if G.tell buf2 ≥ PART_SIZE then
        let payload := G.close buf2
        let cs := crc32Base64 payload
        match S3.uploadPart partNo payload with
        | .error e => ([.uploadPart partNo payload cs], .error e)
        | .ok etag =>
          let t := writeLoop G S3 ser G.init (partNo + 1)
            (parts ++ [⟨partNo, etag, payload.length, cs⟩]) rest
          (.uploadPart partNo payload cs :: t.1, t.2)
      else writeLoop G S3 ser buf2 partNo parts rest

/-- `prefix.rstrip("/")`: drop every trailing `'/'`. -/
def rstripSlashes (s : List Char) : List Char :=
  (s.reverse.dropWhile (· = '/')).reverse

/-- The prefix normalization of `S3Writer.__init__` (s3_writer.py line 97):
`(prefix.rstrip("/") + "/") if prefix else ""`. -/
def normPfx (p : String) : String :=
  if p = "" then "" else String.mk (rstripSlashes p.toList) ++ "/"

/-- `S3Writer.write_events` (s3_writer.py lines 100-177): build the key
`{prefix}{endpoint}/{YYYY/MM/DD}/{HHMMSS}.jsonl.gz` (the two `strftime`
results are the parameters `dateFolder` and `timeStr`), create the
multipart upload, run the `try` block, and on any exception abort the
session and re-raise; on success return the key. -/
def write_events {ε α : Type} (G : GzWriter) (S3 : S3Stub ε) (ser : α → List Nat)
    (bucket prefixRaw endpoint dateFolder timeStr : String)
    (events : List (Except ε α)) : List S3Call × Except ε String :=
  let fname := timeStr ++ ".jsonl.gz"
  let key := normPfx prefixRaw ++ endpoint ++ "/" ++ dateFolder ++ "/" ++ fname
  let t := writeLoop G S3 ser G.init 1 [] events
  match t.2 with
  | .ok _parts => (S3Call.createMultipart bucket key :: t.1, .ok key)
  | .error e => (S3Call.createMultipart bucket key :: t.1 ++ [S3Call.abort], .error e)

/-- The payloads physically uploaded, in call order. -/
def uploadedPayloads (t : List S3Call) : List (List Nat) :=
  t.filterMap fun c => match c with
    | .uploadPart _ payload _ => some payload
    | _ => none

/-- The part numbers of the physically uploaded parts, in call order. -/
def uploadedPartNos (t : List S3Call) : List Nat :=
  t.filterMap fun c => match c with
    | .uploadPart n _ _ => some n
    | _ => none

/-- Splitting a byte stream into newline-terminated lines, newline bytes
removed; a trailing newline does not open an empty final line (the data
lines of a `.jsonl` stream). -/
def splitlines : List Nat → List (List Nat)
  | [] => []
  | b :: bs =>
    if b = 10 then [] :: splitlines bs
    else
      match splitlines bs with
      | [] => [[b]]
      | l :: ls => (b :: l) :: ls

/-- The query parameters in force after a run of pages: unchanged when no
200 page was processed, otherwise the continuation parameters
`{"operation": "next", "index": self.index}`. -/
def contParams {α : Type} (params : Params) (pages : List (List α × Int)) : Params :=
  if pages.isEmpty then params else ⟨.next, params.index⟩

/-- The trace of a run of 200 pages through which the loop keeps going:
for each page, its request, its emitted records in order, and the
server-paced sleep when `wait_time > 0`. -/
def okTraceFull {α : Type} (params : Params) : List (List α × Int) → List (TraceEv α)
  | [] => []
  | (rs, w) :: rest =>
    .request params ::
      (rs.map .emit ++ (if w > 0 then [.sleep w] else []) ++
        okTraceFull ⟨.next, params.index⟩ rest)

/-- A list of 200 pages, as server responses. -/
def okResponses {α : Type} (pages : List (List α × Int)) : List (Response α) :=
  pages.map fun p => .ok p.1 p.2

/-- The records an event iterator produces before raising, in order. -/
def okValues {ε α : Type} (evs : List (Except ε α)) : List α :=
  evs.filterMap fun e => match e with
    | .ok r => some r
    | .error _ => none

/-- An in-memory instantiation of the compressor interface that stores the
written bytes verbatim (used to witness the uploader theorems at concrete
inputs). -/
def idGz : GzWriter :=
  { σ := List Nat, init := [], write := fun s c => s ++ c,
    tell := List.length, close := id }

/-- An S3 stub on which every call succeeds. -/
def okS3 : S3Stub Unit :=
  { uploadPart := fun _ _ => .ok "etag", complete := fun _ => .ok () }

/-- An S3 stub on which every part upload fails. -/
def failS3 : S3Stub Unit :=
  { uploadPart := fun _ _ => .error (), complete := fun _ => .ok () }

/-! ## Fetch client lemmas -/

lemma emittedRecords_append {α : Type} (a b : List (TraceEv α)) :
    emittedRecords (a ++ b) = emittedRecords a ++ emittedRecords b := by
  simp [emittedRecords, List.filterMap_append]

lemma emittedRecords_emits {α : Type} (rs : List α) :
    emittedRecords (rs.map TraceEv.emit) = rs := by
  induction rs with
  | nil => rfl
  | cons r rest ih => simpa [emittedRecords] using ih

lemma emittedRecords_of_no_emit {α : Type} (t : List (TraceEv α))
    (h : ∀ r : α, TraceEv.emit r ∉ t) : emittedRecords t = [] := by
  rw [emittedRecords, List.filterMap_eq_nil_iff]
  intro e he
  cases e with
  | emit r => exact absurd he (h r)
  | request p => rfl
  | sleep s => rfl

lemma contParams_next {α : Type} (i : String) (pages : List (List α × Int)) :
    contParams (⟨.next, i⟩ : Params) pages = ⟨.next, i⟩ := by
  cases pages <;> rfl

/-- Processing the remaining trace of a run that has just received one 200
page: the page's request and records head the trace, whatever the loop does
afterwards contains no `emit`. -/
lemma fetchLoop_single_ok {α : Type} (clock : Nat → Int) (maxPages : Nat)
    (maxDuration : Int) (params : Params) (pc : Nat) (rs : List α) (w : Int) :
    ∃ tail : List (TraceEv α), (∀ r : α, TraceEv.emit r ∉ tail) ∧
      (fetchLoop clock maxPages maxDuration params pc [Response.ok rs w]).1 =
        (TraceEv.request params :: rs.map TraceEv.emit) ++ tail := by
  rw [fetchLoop]
  split
  · exact ⟨[], by simp, by simp⟩
  · split
    · exact ⟨[], by simp, by simp⟩
    · split
      · exact ⟨[], by simp, by simp⟩
      · refine ⟨(if w > 0 then [TraceEv.sleep w] else []) ++
          [TraceEv.request ⟨.next, params.index⟩], ?_, ?_⟩
        · intro r hr
          rcases List.mem_append.1 hr with h | h
          · split at h <;> simp_all
          · simp_all
        · simp [fetchLoop]

/-- Master run lemma: a block of 200 pages through which no stop condition
fires prepends its full trace (requests, records, server-paced sleeps) to
whatever the loop does on the remaining responses, with the page counter
advanced and the parameters switched to the continuation token. -/
lemma fetchLoop_ok_append {α : Type} (clock : Nat → Int) (maxPages : Nat)
    (maxDuration : Int) :
    ∀ (pages : List (List α × Int)) (params : Params) (pc : Nat)
      (rest : List (Response α)),
      (∀ p ∈ pages, p.1 ≠ []) →
      (∀ k < pages.length, pc + k + 1 < maxPages) →
      (∀ k < pages.length, clock (pc + k + 1) - clock 0 < maxDuration) →
      fetchLoop clock maxPages maxDuration params pc (okResponses pages ++ rest) =
        (okTraceFull params pages ++
          (fetchLoop clock maxPages maxDuration (contParams params pages)
            (pc + pages.length) rest).1,
         (fetchLoop clock maxPages maxDuration (contParams params pages)
            (pc + pages.length) rest).2) := by
  intro pages
  induction pages with
  | nil => intro params pc rest _ _ _; simp [okResponses, okTraceFull, contParams]
  | cons page rest' ih =>
    intro params pc rest hne hpg hdur
    obtain ⟨rs, w⟩ := page
    have hrs : rs ≠ [] := hne (rs, w) (List.mem_cons_self _ _)
    have hrs' : rs.isEmpty = false := List.isEmpty_eq_false.2 hrs
    have hpg0 : pc + 1 < maxPages := by
      have := hpg 0 (by simp)
      omega
    have hdur0 : clock (pc + 1) - clock 0 < maxDuration := by
      simpa using hdur 0 (by simp)
    rw [show okResponses ((rs, w) :: rest') ++ rest =
      Response.ok rs w :: (okResponses rest' ++ rest) by simp [okResponses]]
    rw [fetchLoop]
    simp only [hrs', Bool.false_eq_true, false_and, if_false]
    rw [if_neg (by omega), if_neg (by omega)]
    rw [ih ⟨.next, params.index⟩ (pc + 1) rest
      (fun p hp => hne p (List.mem_cons_of_mem _ hp))
      (fun k hk => by have := hpg (k + 1) (by simpa using Nat.succ_lt_succ hk); omega)
      (fun k hk => by
        have := hdur (k + 1) (by simpa using Nat.succ_lt_succ hk)
        have e : pc + (k + 1) + 1 = pc + 1 + k + 1 := by omega
        rwa [e] at this)]
    rw [contParams_next]
    have hcp : contParams params ((rs, w) :: rest') = (⟨.next, params.index⟩ : Params) := rfl
    have hlen : pc + ((rs, w) :: rest').length = pc + 1 + rest'.length := by
      simp; omega
    rw [hcp, hlen]
    simp [okTraceFull]

lemma emittedRecords_okTraceFull {α : Type} :
    ∀ (pages : List (List α × Int)) (params : Params),
      emittedRecords (okTraceFull params pages) = (pages.map Prod.fst).flatten := by
  intro pages
  induction pages with
  | nil => intro params; rfl
  | cons page rest ih =>
    intro params
    obtain ⟨rs, w⟩ := page
    rw [okTraceFull]
    have h1 : emittedRecords (α := α) (TraceEv.request params ::
        (rs.map TraceEv.emit ++ (if w > 0 then [TraceEv.sleep w] else []) ++
          okTraceFull ⟨.next, params.index⟩ rest)) =
        emittedRecords (rs.map TraceEv.emit ++ (if w > 0 then [TraceEv.sleep w] else []) ++
          okTraceFull ⟨.next, params.index⟩ rest) := by
      simp [emittedRecords]
    rw [h1, emittedRecords_append, emittedRecords_append, emittedRecords_emits, ih]
    have h2 : emittedRecords (α := α) (if w > 0 then [TraceEv.sleep w] else []) = [] := by
      split <;> rfl
    simp [h2]

lemma emittedRecords_cons_request {α : Type} (p : Params) (t : List (TraceEv α)) :
    emittedRecords (TraceEv.request p :: t) = emittedRecords t := rfl

lemma emittedRecords_cons_sleep {α : Type} (s : Int) (t : List (TraceEv α)) :
    emittedRecords (TraceEv.sleep s :: t) = emittedRecords t := rfl

/-- C1: for a finite sequence of 200 pages in which every page but the last
has a non-empty `result` (and neither the page budget nor the duration budget
fires before the last page), the records emitted by the fetch loop are
exactly the concatenation of all `result` arrays in page order, and the
trace is the pages' blocks in order — each page's records are emitted
directly after that page's own request and before any later request
(strict FIFO, no reordering, no deduplication). -/
theorem fetch_fifo_concat {α : Type} (clock : Nat → Int) (maxPages : Nat)
    (maxDuration : Int) (sinceEpoch : Int) (index : String)
    (front : List (List α × Int)) (last : List α × Int)
    (hne : ∀ p ∈ front, p.1 ≠ [])
    (hpg : ∀ k < front.length, k + 1 < maxPages)
    (hdur : ∀ k < front.length, clock (k + 1) - clock 0 < maxDuration) :
    emittedRecords (fetchLoop clock maxPages maxDuration ⟨.initial sinceEpoch, index⟩ 0
        (okResponses (front ++ [last]))).1 = ((front ++ [last]).map Prod.fst).flatten ∧
    ∃ tail : List (TraceEv α), (∀ r : α, TraceEv.emit r ∉ tail) ∧
      (fetchLoop clock maxPages maxDuration ⟨.initial sinceEpoch, index⟩ 0
        (okResponses (front ++ [last]))).1 =
      okTraceFull ⟨.initial sinceEpoch, index⟩ front ++
        (TraceEv.request (contParams ⟨.initial sinceEpoch, index⟩ front) ::
          last.1.map TraceEv.emit) ++ tail := by
  obtain ⟨rs, w⟩ := last
  have hsplit : okResponses (front ++ [(rs, w)]) =
      okResponses front ++ [Response.ok rs w] := by
    simp [okResponses]
  have happ := fetchLoop_ok_append clock maxPages maxDuration front
    ⟨.initial sinceEpoch, index⟩ 0 [Response.ok rs w] hne
    (fun k hk => by simpa using hpg k hk)
    (fun k hk => by simpa using hdur k hk)
  obtain ⟨tail, htail, hts⟩ := fetchLoop_single_ok clock maxPages maxDuration
    (contParams ⟨.initial sinceEpoch, index⟩ front) (0 + front.length) rs w
  rw [hsplit, happ]
  constructor
  · rw [emittedRecords_append, emittedRecords_okTraceFull, hts,
      emittedRecords_append, emittedRecords_cons_request,
      emittedRecords_emits, emittedRecords_of_no_emit tail htail]
    simp
  · exact ⟨tail, htail, by rw [hts]; simp⟩

/-- C5: an HTTP 429 answer contributes no records and no page count —
the loop sleeps for the `Retry-After` value (5 when the header is absent)
and reissues the identical request with the same parameters, with no retry
cap; consequently a 429 followed by a 200 carrying records `R` yields
exactly `R`, with no duplication. -/
theorem fetch_rate_limit_retry {α : Type} :
    (∀ (clock : Nat → Int) (maxPages : Nat) (maxDuration : Int) (params : Params)
        (pc : Nat) (ra : Option Int) (rest : List (Response α)),
      fetchLoop clock maxPages maxDuration params pc (Response.rateLimited ra :: rest) =
        (TraceEv.request params :: TraceEv.sleep (ra.getD 5) ::
          (fetchLoop clock maxPages maxDuration params pc rest).1,
         (fetchLoop clock maxPages maxDuration params pc rest).2)) ∧
    (∀ (clock : Nat → Int) (maxPages : Nat) (maxDuration : Int) (params : Params)
        (pc : Nat) (ra : Option Int) (R : List α) (w : Int),
      emittedRecords (fetchLoop clock maxPages maxDuration params pc
        [Response.rateLimited ra, Response.ok R w]).1 = R) := by
  constructor
  · intro clock mp md params pc ra rest
    rw [fetchLoop]
  · intro clock mp md params pc ra R w
    obtain ⟨tail, htail, hts⟩ := fetchLoop_single_ok clock mp md params pc R w
    have h : fetchLoop clock mp md params pc [Response.rateLimited ra, Response.ok R w] =
        (TraceEv.request params :: TraceEv.sleep (ra.getD 5) ::
          (fetchLoop clock mp md params pc [Response.ok R w]).1,
         (fetchLoop clock mp md params pc [Response.ok R w]).2) := by
      rw [fetchLoop]
    rw [h]
    rw [emittedRecords_cons_request, emittedRecords_cons_sleep, hts,
      emittedRecords_append, emittedRecords_cons_request,
      emittedRecords_emits, emittedRecords_of_no_emit tail htail]
    simp

/-- C7: a transport failure (connection error or timeout) on some request
ends the iteration at that point: all records of the previously completed
pages have been emitted, the failing request produces no records, and the
outcome is the silent early stop `transportFail`, not a raised error. -/
theorem fetch_transport_truncation {α : Type} (clock : Nat → Int)
    (maxPages : Nat) (maxDuration : Int) (sinceEpoch : Int) (index : String)
    (pages : List (List α × Int)) (rest : List (Response α))
    (hne : ∀ p ∈ pages, p.1 ≠ [])
    (hpg : ∀ k < pages.length, k + 1 < maxPages)
    (hdur : ∀ k < pages.length, clock (k + 1) - clock 0 < maxDuration) :
    emittedRecords (fetchLoop clock maxPages maxDuration ⟨.initial sinceEpoch, index⟩ 0
        (okResponses pages ++ Response.transportError :: rest)).1 =
      (pages.map Prod.fst).flatten ∧
    (fetchLoop clock maxPages maxDuration ⟨.initial sinceEpoch, index⟩ 0
        (okResponses pages ++ Response.transportError :: rest)).2 = .transportFail := by
  have happ := fetchLoop_ok_append clock maxPages maxDuration pages
    ⟨.initial sinceEpoch, index⟩ 0 (Response.transportError :: rest) hne
    (fun k hk => by simpa using hpg k hk)
    (fun k hk => by simpa using hdur k hk)
  rw [happ]
  have hstep : fetchLoop clock maxPages maxDuration
      (contParams ⟨.initial sinceEpoch, index⟩ pages) (0 + pages.length)
      (Response.transportError :: rest) =
      ([TraceEv.request (contParams ⟨.initial sinceEpoch, index⟩ pages)],
        Outcome.transportFail) := by
    rw [fetchLoop]
  rw [hstep]
  constructor
  · rw [emittedRecords_append, emittedRecords_okTraceFull]
    simp [emittedRecords]
  · rfl

/-- C8: a category absent from the endpoint path map makes `fetch_events`
fail with the `Unsupported endpoint` `ValueError` before any record is
produced and before any HTTP request is issued (the result carries no trace
at all); a category present in the map never raises it — the run proceeds
normally whatever the responses are. -/
theorem fetch_unsupported_category {α : Type} :
    (∀ (m : List (String × String)) (clock : Nat → Int) (maxPages : Nat)
        (maxDuration : Int) (category : String) (sinceEpoch : Int) (index : String)
        (responses : List (Response α)),
      lookupPath m category = none →
      fetch_events m clock maxPages maxDuration category sinceEpoch index responses =
        .error ("Unsupported endpoint: " ++ category)) ∧
    (∀ (m : List (String × String)) (clock : Nat → Int) (maxPages : Nat)
        (maxDuration : Int) (category : String) (sinceEpoch : Int) (index : String)
        (responses : List (Response α)) (path : String),
      lookupPath m category = some path →
      fetch_events m clock maxPages maxDuration category sinceEpoch index responses =
        .ok (fetchLoop clock maxPages maxDuration ⟨.initial sinceEpoch, index⟩ 0
          responses)) := by
  constructor
  · intro m clock mp md cat since idx responses h
    unfold fetch_events
    rw [h]
  · intro m clock mp md cat since idx responses path h
    unfold fetch_events
    rw [h]

/-- C6 counterexample: the claim quantifies over every `maxPages = N`, but
with `N = 0` and two non-empty pages available the loop still emits the
whole first page before the page-count check runs (`page_count += 1`
happens only after the yield), so the fetch returns one page's records,
not `N = 0` pages' worth. -/
theorem fetch_budget_truncation_cex :
    emittedRecords (fetchLoop (α := Nat) (fun _ => 0) 0 300 ⟨.initial 0, "idx"⟩ 0
      (okResponses [([1], 0), ([2], 0)])).1 = [1] ∧
    emittedRecords (fetchLoop (α := Nat) (fun _ => 0) 0 300 ⟨.initial 0, "idx"⟩ 0
      (okResponses [([1], 0), ([2], 0)])).1 ≠
      (([([1], 0), ([2], 0)].take 0).map (Prod.fst (β := Int))).flatten := by
  constructor
  · decide
  · decide

/-- C6, amended (`maxPages ≥ 1`): budget truncation is a silent success,
not an error.  With `maxPages = N ≥ 1` and more than `N` non-empty pages
available (and the duration budget not firing first), exactly the first
`N` pages' records are returned and the run stops with the page-limit
outcome; and with `maxDurationSeconds = 0` under any non-decreasing clock,
exactly the first page's records are returned. -/
theorem fetch_budget_truncation {α : Type} :
    (∀ (clock : Nat → Int) (maxPages : Nat) (maxDuration : Int) (sinceEpoch : Int)
        (index : String) (pages : List (List α × Int)),
      1 ≤ maxPages → maxPages < pages.length →
      (∀ p ∈ pages, p.1 ≠ []) →
      (∀ k, k + 1 < maxPages → clock (k + 1) - clock 0 < maxDuration) →
      emittedRecords (fetchLoop clock maxPages maxDuration ⟨.initial sinceEpoch, index⟩ 0
          (okResponses pages)).1 = ((pages.take maxPages).map Prod.fst).flatten ∧
      (fetchLoop clock maxPages maxDuration ⟨.initial sinceEpoch, index⟩ 0
          (okResponses pages)).2 = .pageLimit) ∧
    (∀ (clock : Nat → Int) (maxPages : Nat) (params : Params) (rs : List α) (w : Int)
        (rest : List (Response α)),
      Monotone clock →
      emittedRecords (fetchLoop clock maxPages 0 params 0 (Response.ok rs w :: rest)).1
        = rs) := by
  constructor
  · intro clock maxPages maxDuration sinceEpoch index pages h1 hlen hne hdur
    have hfl : maxPages - 1 < pages.length := by omega
    set front := pages.take (maxPages - 1) with hfront
    set p := pages[maxPages - 1] with hp
    have hdecomp : pages = front ++ (p :: pages.drop (maxPages - 1 + 1)) := by
      rw [hfront, hp, ← List.drop_eq_getElem_cons hfl, List.take_append_drop]
    have hflen : front.length = maxPages - 1 := by
      rw [hfront, List.length_take]; omega
    have happ := fetchLoop_ok_append clock maxPages maxDuration front
      ⟨.initial sinceEpoch, index⟩ 0 (okResponses (p :: pages.drop (maxPages - 1 + 1)))
      (fun q hq => hne q (by rw [hdecomp]; exact List.mem_append_left _ hq))
      (fun k hk => by rw [hflen] at hk; omega)
      (fun k hk => by
        rw [hflen] at hk
        have := hdur k (by omega)
        simpa using this)
    have hresp : okResponses pages =
        okResponses front ++ okResponses (p :: pages.drop (maxPages - 1 + 1)) := by
      conv_lhs => rw [hdecomp]
      simp [okResponses]
    have hpne : p.1.isEmpty = false :=
      List.isEmpty_eq_false.2 (hne p (by rw [hdecomp]; simp))
    have hstep : fetchLoop clock maxPages maxDuration
        (contParams ⟨.initial sinceEpoch, index⟩ front) (0 + front.length)
        (okResponses (p :: pages.drop (maxPages - 1 + 1))) =
        ((TraceEv.request (contParams ⟨.initial sinceEpoch, index⟩ front) ::
          p.1.map TraceEv.emit), Outcome.pageLimit) := by
      rw [show okResponses (p :: pages.drop (maxPages - 1 + 1)) =
        Response.ok p.1 p.2 :: okResponses (pages.drop (maxPages - 1 + 1)) by
          simp [okResponses]]
      rw [fetchLoop]
      rw [if_neg (by simp [hpne]), if_pos (by rw [hflen]; omega)]
    have htake : pages.take maxPages = front ++ [p] := by
      have : maxPages = (maxPages - 1) + 1 := by omega
      rw [this, List.take_succ, hfront, List.getElem?_eq_getElem hfl]
      simp [hp]
    rw [hresp, happ, hstep]
    constructor
    · rw [emittedRecords_append, emittedRecords_okTraceFull,
        emittedRecords_cons_request, emittedRecords_emits, htake]
      simp
    · rfl
  · intro clock maxPages params rs w rest hmono
    have helapsed : clock (0 + 1) - clock 0 ≥ 0 := by
      have h := hmono (Nat.zero_le 1)
      have e : (0 : Nat) + 1 = 1 := rfl
      rw [e]
      omega
    rw [fetchLoop]
    split_ifs with hnat hpg
    · rw [emittedRecords_cons_request, emittedRecords_emits]
    · rw [emittedRecords_cons_request, emittedRecords_emits]
    · rw [emittedRecords_cons_request, emittedRecords_emits]

/-! ## S3 writer lemmas -/

lemma GzWriter.writeAll_nil (G : GzWriter) (s : G.σ) : G.writeAll s [] = s := rfl

lemma GzWriter.write_writeAll (G : GzWriter) (cs : List (List Nat)) (x : List Nat) :
    G.write (G.writeAll G.init cs) x = G.writeAll G.init (cs ++ [x]) := by
  simp [GzWriter.writeAll, List.foldl_append]

lemma uploadedPayloads_cons_upload (n : Nat) (pl : List Nat) (c : String)
    (t : List S3Call) : uploadedPayloads (S3Call.uploadPart n pl c :: t) =
      pl :: uploadedPayloads t := rfl

lemma uploadedPayloads_cons_complete (ps : List CompletedPart) (t : List S3Call) :
    uploadedPayloads (S3Call.complete ps :: t) = uploadedPayloads t := rfl

lemma uploadedPayloads_cons_create (b k : String) (t : List S3Call) :
    uploadedPayloads (S3Call.createMultipart b k :: t) = uploadedPayloads t := rfl

lemma uploadedPayloads_append (a b : List S3Call) :
    uploadedPayloads (a ++ b) = uploadedPayloads a ++ uploadedPayloads b := by
  simp [uploadedPayloads, List.filterMap_append]

lemma uploadedPartNos_cons_upload (n : Nat) (pl : List Nat) (c : String)
    (t : List S3Call) : uploadedPartNos (S3Call.uploadPart n pl c :: t) =
      n :: uploadedPartNos t := rfl

lemma uploadedPartNos_cons_complete (ps : List CompletedPart) (t : List S3Call) :
    uploadedPartNos (S3Call.complete ps :: t) = uploadedPartNos t := rfl

lemma uploadedPartNos_cons_create (b k : String) (t : List S3Call) :
    uploadedPartNos (S3Call.createMultipart b k :: t) = uploadedPartNos t := rfl

/-- Every part upload call carries the checksum `_crc32_base64` computes
over exactly that part's payload bytes, whatever the outcome of the run. -/
lemma writeLoop_checksum {ε α : Type} (G : GzWriter) (S3 : S3Stub ε)
    (ser : α → List Nat) :
    ∀ (evs : List (Except ε α)) (buf : G.σ) (pn : Nat) (parts : List PartInfo)
      (n : Nat) (pl : List Nat) (c : String),
      S3Call.uploadPart n pl c ∈ (writeLoop G S3 ser buf pn parts evs).1 →
      c = crc32Base64 pl := by
  intro evs
  induction evs with
  | nil =>
    intro buf pn parts n pl c h
    rw [writeLoop] at h
    rcases hup : S3.uploadPart pn (G.close buf) with e | etag <;>
      simp only [hup] at h
    · simp at h
      obtain ⟨-, hpl, hc⟩ := h
      rw [hc, hpl]
    · split at h <;>
      · simp at h
        obtain ⟨-, hpl, hc⟩ := h
        rw [hc, hpl]
  | cons ev rest ih =>
    intro buf pn parts n pl c h
    rcases ev with e | r
    · rw [writeLoop] at h
      simp at h
    · rw [writeLoop] at h
      simp only [] at h
      by_cases hsz : G.tell (G.write buf (ser r ++ [10])) ≥ PART_SIZE
      · rw [if_pos hsz] at h
        rcases hup : S3.uploadPart pn (G.close (G.write buf (ser r ++ [10])))
            with e | etag <;> simp only [hup] at h
        · simp at h
          obtain ⟨-, hpl, hc⟩ := h
          rw [hc, hpl]
        · simp only [List.mem_cons] at h
          rcases h with h | h
          · obtain ⟨-, hpl, hc⟩ := S3Call.uploadPart.inj h
            rw [hc, hpl]
          · exact ih _ _ _ n pl c h
      · rw [if_neg hsz] at h
        exact ih _ _ _ n pl c h

/-- Master success lemma for the upload loop.  Starting from a buffer into
which the chunks `cs` have been written, a successful run partitions the
written data into per-part chunk lists `css`: the uploaded payloads are the
closed compressor outputs of the chunks, their concatenation is the pending
data plus one newline-terminated serialized line per consumed record, part
numbers count up from `pn`, the trace ends with the one completion call
enumerating the final parts list, and that list extends `parts` with one
entry per upload carrying its number, checksum, size, and the ETag
acknowledgment returned by that part's physical upload call.  When only one
part was uploaded, the buffer never reached the threshold (or no record
was ever written). -/
lemma writeLoop_ok_spec {ε α : Type} (G : GzWriter) (S3 : S3Stub ε)
    (ser : α → List Nat) :
    ∀ (evs : List (Except ε α)) (cs : List (List Nat)) (pn : Nat)
      (parts : List PartInfo) (t : List S3Call) (partsF : List PartInfo),
      writeLoop G S3 ser (G.writeAll G.init cs) pn parts evs = (t, .ok partsF) →
      ∃ css : List (List (List Nat)), css ≠ [] ∧
        uploadedPayloads t = css.map (fun c => G.close (G.writeAll G.init c)) ∧
        css.flatten = cs ++ (okValues evs).map (fun r => ser r ++ [10]) ∧
        uploadedPartNos t = List.range' pn css.length ∧
        (∃ t1, t = t1 ++ [S3Call.complete (partsF.map toCompleted)] ∧
          ∀ ps, S3Call.complete ps ∉ t1) ∧
        partsF.map PartInfo.partNumber =
          parts.map PartInfo.partNumber ++ uploadedPartNos t ∧
        partsF.map PartInfo.checksumCRC32 =
          parts.map PartInfo.checksumCRC32 ++ (uploadedPayloads t).map crc32Base64 ∧
        partsF.map PartInfo.size =
          parts.map PartInfo.size ++ (uploadedPayloads t).map List.length ∧
        partsF.map (fun p => Except.ok p.etag) =
          parts.map (fun p => Except.ok p.etag) ++
            List.zipWith S3.uploadPart (uploadedPartNos t) (uploadedPayloads t) ∧
        (css.length = 1 →
          G.tell (G.writeAll G.init (css.getLastD [])) < PART_SIZE ∨
            css.getLastD [] = cs) := by
  intro evs
  induction evs with
  | nil =>
    intro cs pn parts t partsF h
    rw [writeLoop] at h
    rcases hup : S3.uploadPart pn (G.close (G.writeAll G.init cs)) with e | etag <;>
      simp only [hup] at h
    · simp at h
    · split at h
      · simp at h
      · simp only [Prod.mk.injEq, Except.ok.injEq] at h
        obtain ⟨ht, hpf⟩ := h
        subst ht
        subst hpf
        refine ⟨[cs], by simp, by simp [uploadedPayloads], ?_, ?_, ?_, ?_, ?_, ?_, ?_, ?_⟩
        · simp [okValues]
        · simp [uploadedPartNos, List.range'_one]
        · exact ⟨[S3Call.uploadPart pn (G.close (G.writeAll G.init cs))
            (crc32Base64 (G.close (G.writeAll G.init cs)))], rfl, by simp⟩
        · simp [uploadedPartNos]
        · simp [uploadedPayloads]
        · simp [uploadedPayloads]
        · simp [uploadedPartNos, uploadedPayloads, hup]
        · intro h1
          exact Or.inr rfl
  | cons ev rest ih =>
    intro cs pn parts t partsF h
    rcases ev with e | r
    · rw [writeLoop] at h
      simp at h
    · rw [writeLoop] at h
      simp only [] at h
      rw [G.write_writeAll cs (ser r ++ [10])] at h
      by_cases hsz : G.tell (G.writeAll G.init (cs ++ [ser r ++ [10]])) ≥ PART_SIZE
      · rw [if_pos hsz] at h
        rcases hup : S3.uploadPart pn
            (G.close (G.writeAll G.init (cs ++ [ser r ++ [10]]))) with e | etag <;>
          simp only [hup] at h
        · simp at h
        · simp only [Prod.mk.injEq] at h
          obtain ⟨ht, hres⟩ := h
          subst ht
          obtain ⟨css, hcne, hpl, hflat, hnos, hcompl, hm1, hm2, hm3, hm4, hlast⟩ :=
            ih [] (pn + 1)
              (parts ++ [⟨pn, etag,
                (G.close (G.writeAll G.init (cs ++ [ser r ++ [10]]))).length,
                crc32Base64 (G.close (G.writeAll G.init (cs ++ [ser r ++ [10]])))⟩])
              _ partsF (by rw [G.writeAll_nil]; rw [← hres])
          refine ⟨(cs ++ [ser r ++ [10]]) :: css, by simp, ?_, ?_, ?_, ?_, ?_, ?_, ?_, ?_, ?_⟩
          · rw [uploadedPayloads_cons_upload, hpl]
            rfl
          · rw [List.flatten_cons, hflat]
            simp [okValues]
          · rw [uploadedPartNos_cons_upload, hnos]
            rw [List.length_cons, List.range'_succ]
          · obtain ⟨t1, ht1, hnc⟩ := hcompl
            refine ⟨S3Call.uploadPart pn
              (G.close (G.writeAll G.init (cs ++ [ser r ++ [10]])))
              (crc32Base64 (G.close (G.writeAll G.init (cs ++ [ser r ++ [10]])))) :: t1,
              by rw [List.cons_append, ht1], ?_⟩
            intro ps hps
            rcases List.mem_cons.1 hps with hh | hh
            · exact S3Call.noConfusion hh
            · exact hnc ps hh
          · rw [hm1, uploadedPartNos_cons_upload]
            simp
          · rw [hm2, uploadedPayloads_cons_upload]
            simp
          · rw [hm3, uploadedPayloads_cons_upload]
            simp
          · rw [hm4, uploadedPartNos_cons_upload, uploadedPayloads_cons_upload]
            simp [hup]
          · intro h1
            exfalso
            rw [List.length_cons] at h1
            have : css.length = 0 := by omega
            exact hcne (List.length_eq_zero.1 this)
      · rw [if_neg hsz] at h
        obtain ⟨css, hcne, hpl, hflat, hnos, hcompl, hm1, hm2, hm3, hm4, hlast⟩ :=
          ih (cs ++ [ser r ++ [10]]) pn parts t partsF h
        refine ⟨css, hcne, hpl, ?_, hnos, hcompl, hm1, hm2, hm3, hm4, ?_⟩
        · rw [hflat]
          simp [okValues]
        · intro h1
          rcases hlast h1 with hl | hl
          · exact Or.inl hl
          · refine Or.inl ?_
            rw [hl]
            exact Nat.lt_of_not_le hsz

/-- Error provenance: when the upload loop ends in an exception, that
exception is the one raised by the event iterator, by a part upload call
recorded in the trace, or by the completion call recorded in the trace. -/
lemma writeLoop_error_spec {ε α : Type} (G : GzWriter) (S3 : S3Stub ε)
    (ser : α → List Nat) :
    ∀ (evs : List (Except ε α)) (buf : G.σ) (pn : Nat) (parts : List PartInfo)
      (t : List S3Call) (e : ε),
      writeLoop G S3 ser buf pn parts evs = (t, .error e) →
      Except.error e ∈ evs ∨
      (∃ n pl, S3Call.uploadPart n pl (crc32Base64 pl) ∈ t ∧
        S3.uploadPart n pl = .error e) ∨
      (∃ ps, S3Call.complete ps ∈ t ∧ S3.complete ps = .error e) := by
  intro evs
  induction evs with
  | nil =>
    intro buf pn parts t e h
    rw [writeLoop] at h
    rcases hup : S3.uploadPart pn (G.close buf) with e0 | etag <;>
      simp only [hup] at h
    · simp only [Prod.mk.injEq, Except.error.injEq] at h
      obtain ⟨ht, he⟩ := h
      subst ht; subst he
      exact Or.inr (Or.inl ⟨pn, G.close buf, by simp, hup⟩)
    · split at h
      · rename_i e1 hcomp
        simp only [Prod.mk.injEq, Except.error.injEq] at h
        obtain ⟨ht, he⟩ := h
        subst ht; subst he
        exact Or.inr (Or.inr ⟨_, by simp, hcomp⟩)
      · simp at h
  | cons ev rest ih =>
    intro buf pn parts t e h
    rcases ev with e0 | r
    · rw [writeLoop] at h
      simp only [Prod.mk.injEq, Except.error.injEq] at h
      obtain ⟨-, he⟩ := h
      subst he
      exact Or.inl (List.mem_cons_self _ _)
    · rw [writeLoop] at h
      simp only [] at h
      by_cases hsz : G.tell (G.write buf (ser r ++ [10])) ≥ PART_SIZE
      · rw [if_pos hsz] at h
        rcases hup : S3.uploadPart pn (G.close (G.write buf (ser r ++ [10])))
            with e0 | etag <;> simp only [hup] at h
        · simp only [Prod.mk.injEq, Except.error.injEq] at h
          obtain ⟨ht, he⟩ := h
          subst ht; subst he
          exact Or.inr (Or.inl ⟨pn, _, by simp, hup⟩)
        · simp only [Prod.mk.injEq] at h
          obtain ⟨ht, hres⟩ := h
          subst ht
          rcases ih _ _ _ _ _ (by rw [← hres]) with h1 | h2 | h3
          · exact Or.inl (List.mem_cons_of_mem _ h1)
          · obtain ⟨n, pl, hmem, hfail⟩ := h2
            exact Or.inr (Or.inl ⟨n, pl, List.mem_cons_of_mem _ hmem, hfail⟩)
          · obtain ⟨ps, hmem, hfail⟩ := h3
            exact Or.inr (Or.inr ⟨ps, List.mem_cons_of_mem _ hmem, hfail⟩)
      · rw [if_neg hsz] at h
        rcases ih _ _ _ _ _ h with h1 | h2 | h3
        · exact Or.inl (List.mem_cons_of_mem _ h1)
        · exact Or.inr (Or.inl h2)
        · exact Or.inr (Or.inr h3)

/-- A physically attempted part upload whose call fails stops the loop:
no completion call appears anywhere in the trace and the loop's result is
exactly that upload's exception. -/
lemma writeLoop_partfail_spec {ε α : Type} (G : GzWriter) (S3 : S3Stub ε)
    (ser : α → List Nat) :
    ∀ (evs : List (Except ε α)) (buf : G.σ) (pn : Nat) (parts : List PartInfo)
      (n : Nat) (pl : List Nat) (c : String) (e : ε),
      S3Call.uploadPart n pl c ∈ (writeLoop G S3 ser buf pn parts evs).1 →
      S3.uploadPart n pl = .error e →
      (∀ ps, S3Call.complete ps ∉ (writeLoop G S3 ser buf pn parts evs).1) ∧
      (writeLoop G S3 ser buf pn parts evs).2 = .error e := by
  intro evs
  induction evs with
  | nil =>
    intro buf pn parts n pl c e hmem hfail
    rw [writeLoop] at hmem ⊢
    rcases hup : S3.uploadPart pn (G.close buf) with e0 | etag <;>
      simp only [hup] at hmem ⊢
    · simp at hmem
      obtain ⟨hn, hpl, -⟩ := hmem
      subst hn; subst hpl
      rw [hup] at hfail
      simp only [Except.error.injEq] at hfail
      subst hfail
      exact ⟨by simp, rfl⟩
    · split at hmem
      · rename_i e1 hcomp
        exfalso
        simp at hmem
        obtain ⟨hn, hpl, -⟩ := hmem
        subst hn; subst hpl
        rw [hup] at hfail
        exact Except.noConfusion hfail
      · exfalso
        simp at hmem
        obtain ⟨hn, hpl, -⟩ := hmem
        subst hn; subst hpl
        rw [hup] at hfail
        exact Except.noConfusion hfail
  | cons ev rest ih =>
    intro buf pn parts n pl c e hmem hfail
    rcases ev with e0 | r
    · rw [writeLoop] at hmem
      simp at hmem
    · rw [writeLoop] at hmem ⊢
      simp only [] at hmem ⊢
      by_cases hsz : G.tell (G.write buf (ser r ++ [10])) ≥ PART_SIZE
      · rw [if_pos hsz] at hmem ⊢
        rcases hup : S3.uploadPart pn (G.close (G.write buf (ser r ++ [10])))
            with e0 | etag <;> simp only [hup] at hmem ⊢
        · simp at hmem
          obtain ⟨hn, hpl, -⟩ := hmem
          subst hn; subst hpl
          rw [hup] at hfail
          simp only [Except.error.injEq] at hfail
          subst hfail
          exact ⟨by simp, rfl⟩
        · simp only [List.mem_cons] at hmem
          rcases hmem with hh | hh
          · exfalso
            obtain ⟨hn, hpl, -⟩ := S3Call.uploadPart.inj hh
            subst hn; subst hpl
            rw [hup] at hfail
            exact Except.noConfusion hfail
          · obtain ⟨hnc, hres⟩ := ih _ _ _ n pl c e hh hfail
            refine ⟨?_, hres⟩
            intro ps hps
            rcases List.mem_cons.1 hps with h1 | h1
            · exact S3Call.noConfusion h1
            · exact hnc ps h1
      · rw [if_neg hsz] at hmem ⊢
        exact ih _ _ _ n pl c e hmem hfail

/-- With no records left, the loop closes the current buffer and uploads it
as the one remaining part: a successful run from here has exactly that
single payload. -/
lemma writeLoop_nil_payload {ε α : Type} (G : GzWriter) (S3 : S3Stub ε)
    (ser : α → List Nat) (buf : G.σ) (pn : Nat) (parts : List PartInfo)
    (t : List S3Call) (partsF : List PartInfo)
    (h : writeLoop G S3 ser buf pn parts [] = (t, .ok partsF)) :
    uploadedPayloads t = [G.close buf] := by
  rw [writeLoop] at h
  rcases hup : S3.uploadPart pn (G.close buf) with e0 | etag <;>
    simp only [hup] at h
  · simp at h
  · split at h
    · simp at h
    · simp only [Prod.mk.injEq] at h
      obtain ⟨ht, -⟩ := h
      subst ht
      simp [uploadedPayloads]

lemma okValues_cons_ok {ε α : Type} (r : α) (l : List (Except ε α)) :
    okValues (Except.ok r :: l) = r :: okValues l := rfl

lemma okValues_map_ok {ε α : Type} (records : List α) :
    okValues (ε := ε) (records.map Except.ok) = records := by
  induction records with
  | nil => rfl
  | cons r rest ih => rw [List.map_cons, okValues_cons_ok, ih]

lemma splitlines_line_append (l rest : List Nat) (hl : (10 : Nat) ∉ l) :
    splitlines (l ++ 10 :: rest) = l :: splitlines rest := by
  induction l with
  | nil =>
    rw [List.nil_append, splitlines]
    simp
  | cons b bs ih =>
    have hb : b ≠ 10 := fun hb => hl (by simp [hb])
    have hbs : (10 : Nat) ∉ bs := fun hm => hl (List.mem_cons_of_mem _ hm)
    rw [List.cons_append, splitlines, if_neg hb, ih hbs]

lemma splitlines_lines {α : Type} (ser : α → List Nat) :
    ∀ (records : List α), (∀ r ∈ records, (10 : Nat) ∉ ser r) →
      splitlines ((records.map fun r => ser r ++ [10]).flatten) =
        records.map ser := by
  intro records
  induction records with
  | nil => intro _; rfl
  | cons r rest ih =>
    intro h
    rw [List.map_cons, List.flatten_cons,
      show (ser r ++ [10]) ++ (rest.map fun x => ser x ++ [10]).flatten =
        ser r ++ 10 :: (rest.map fun x => ser x ++ [10]).flatten by simp]
    rw [splitlines_line_append _ _ (h r (by simp)),
      ih (fun x hx => h x (by simp [hx]))]
    rfl

lemma rstripSlashes_getLast (s : List Char) :
    (rstripSlashes s).getLast? ≠ some '/' := by
  rw [rstripSlashes, List.getLast?_reverse]
  generalize s.reverse = l
  induction l with
  | nil => simp [List.dropWhile]
  | cons c cs ih =>
    rw [List.dropWhile_cons]
    split
    · exact ih
    · rename_i hc
      simp only [List.head?_cons, ne_eq, Option.some.injEq]
      intro he
      exact hc (by simp [he])

lemma foldl_append_flatten (i : List Nat) (c : List (List Nat)) :
    c.foldl (fun s x => s ++ x) i = i ++ c.flatten := by
  induction c generalizing i with
  | nil => simp
  | cons x xs ih => simp [ih]

/-- A successful `write_events` run: the returned key is the constructed
object key, the trace is the session creation followed by the loop's calls,
and the loop itself succeeded. -/
lemma write_events_ok_spec {ε α : Type} (G : GzWriter) (S3 : S3Stub ε)
    (ser : α → List Nat) (bucket prefixRaw endpoint dateFolder timeStr : String)
    (events : List (Except ε α)) (key : String)
    (hres : (write_events G S3 ser bucket prefixRaw endpoint dateFolder timeStr
      events).2 = .ok key) :
    key = normPfx prefixRaw ++ endpoint ++ "/" ++ dateFolder ++ "/" ++
      (timeStr ++ ".jsonl.gz") ∧
    (write_events G S3 ser bucket prefixRaw endpoint dateFolder timeStr events).1 =
      S3Call.createMultipart bucket key ::
        (writeLoop G S3 ser G.init 1 [] events).1 ∧
    ∃ partsF, (writeLoop G S3 ser G.init 1 [] events).2 = .ok partsF := by
  unfold write_events at hres ⊢
  rcases hw : (writeLoop G S3 ser G.init 1 [] events).2 with e | partsF <;>
    simp only [hw] at hres ⊢
  · simp at hres
  · simp only [Except.ok.injEq] at hres
    exact ⟨hres.symm, by rw [hres], partsF, rfl⟩

/-- A failed `write_events` run: the trace is the session creation, the
loop's calls, then the abort, and the loop itself raised the returned
exception. -/
lemma write_events_error_spec {ε α : Type} (G : GzWriter) (S3 : S3Stub ε)
    (ser : α → List Nat) (bucket prefixRaw endpoint dateFolder timeStr : String)
    (events : List (Except ε α)) (e : ε)
    (hres : (write_events G S3 ser bucket prefixRaw endpoint dateFolder timeStr
      events).2 = .error e) :
    (write_events G S3 ser bucket prefixRaw endpoint dateFolder timeStr events).1 =
      S3Call.createMultipart bucket (normPfx prefixRaw ++ endpoint ++ "/" ++
          dateFolder ++ "/" ++ (timeStr ++ ".jsonl.gz")) ::
        (writeLoop G S3 ser G.init 1 [] events).1 ++ [S3Call.abort] ∧
    (writeLoop G S3 ser G.init 1 [] events).2 = .error e := by
  unfold write_events at hres ⊢
  rcases hw : (writeLoop G S3 ser G.init 1 [] events).2 with e0 | partsF <;>
    simp only [hw] at hres ⊢
  · simp only [Except.error.injEq] at hres
    subst hres
    exact ⟨trivial, rfl⟩
  · simp at hres

/-- C9: `_crc32_base64` applied to the byte string `"abc"` (bytes
`[97, 98, 99]`) returns exactly `"NSRBwg=="` — the scheme is CRC32 of the
payload taken as a 4-byte big-endian value, base64-encoded. -/
theorem crc32Base64_abc :
    crc32Base64 [97, 98, 99] = "NSRBwg==" ∧
    crc32 [97, 98, 99] = 0x352441C2 ∧
    crc32Base64 [97, 98, 99] =
      String.mk (base64Encode (toBytes4BE (crc32 [97, 98, 99]))) := by
  exact ⟨by decide, by decide, rfl⟩

/-- C2: for every input record sequence, decompressing the concatenation of
all uploaded part payloads — for any compressor whose closed members
concatenate-and-decompress to the written bytes — and splitting on newlines
reproduces, in order, exactly the serialized form of every record, one per
line; the empty sequence still produces exactly one uploaded part (whose
decompressed content has zero data lines, by the first conjunct). -/
theorem write_roundtrip {ε α : Type} (G : GzWriter) (S3 : S3Stub ε)
    (ser : α → List Nat) (decomp : List Nat → List Nat)
    (bucket prefixRaw endpoint dateFolder timeStr : String)
    (records : List α) (key : String)
    (hdecomp : ∀ css : List (List (List Nat)),
      decomp ((css.map fun c => G.close (G.writeAll G.init c)).flatten) =
        css.flatten.flatten)
    (hnl : ∀ r : α, (10 : Nat) ∉ ser r)
    (hres : (write_events G S3 ser bucket prefixRaw endpoint dateFolder timeStr
      (records.map Except.ok)).2 = .ok key) :
    splitlines (decomp (uploadedPayloads (write_events G S3 ser bucket prefixRaw
        endpoint dateFolder timeStr (records.map Except.ok)).1).flatten) =
      records.map ser ∧
    (records = [] →
      (uploadedPayloads (write_events G S3 ser bucket prefixRaw endpoint
        dateFolder timeStr (records.map Except.ok)).1).length = 1) := by
  obtain ⟨hkey, htr, partsF, hloop⟩ := write_events_ok_spec G S3 ser bucket
    prefixRaw endpoint dateFolder timeStr (records.map Except.ok) key hres
  have hpair : writeLoop G S3 ser (G.writeAll G.init []) 1 []
      (records.map Except.ok) =
      ((writeLoop G S3 ser G.init 1 [] (records.map Except.ok)).1,
        .ok partsF) := by
    rw [G.writeAll_nil, ← hloop]
  obtain ⟨css, hcne, hpl, hflat, -, -, -, -, -, -⟩ :=
    writeLoop_ok_spec G S3 ser (records.map Except.ok) [] 1 [] _ partsF hpair
  have hok : okValues (ε := ε) (records.map Except.ok) = records :=
    okValues_map_ok records
  constructor
  · rw [htr, uploadedPayloads_cons_create, hpl, hdecomp, hflat, hok]
    simp only [List.nil_append]
    exact splitlines_lines ser records (fun r _ => hnl r)
  · intro hrec
    subst hrec
    have hpair0 : writeLoop G S3 ser G.init 1 []
        (List.map Except.ok ([] : List α)) =
        ((writeLoop G S3 ser G.init 1 []
          (List.map Except.ok ([] : List α))).1, .ok partsF) := by
      rw [← hloop]
    have hone := writeLoop_nil_payload G S3 ser G.init 1 [] _ partsF hpair0
    rw [htr, uploadedPayloads_cons_create, hone]
    rfl

/-- C3: whenever `write_events` raises — the iterator fails during
buffering, a part upload fails, or the completion call fails — the trace
ends with the session abort and the raised exception is the original one
(from the iterator, a recorded upload call, or the recorded completion
call); moreover a failed part upload stops the run with that exception and
no completion call is ever issued, so no partially-assembled object becomes
visible. -/
theorem write_abort_on_error {ε α : Type} (G : GzWriter) (S3 : S3Stub ε)
    (ser : α → List Nat) (bucket prefixRaw endpoint dateFolder timeStr : String)
    (events : List (Except ε α)) :
    (∀ e : ε,
      (write_events G S3 ser bucket prefixRaw endpoint dateFolder timeStr
        events).2 = .error e →
      (∃ t1, (write_events G S3 ser bucket prefixRaw endpoint dateFolder timeStr
        events).1 = t1 ++ [S3Call.abort]) ∧
      (Except.error e ∈ events ∨
       (∃ n pl, S3Call.uploadPart n pl (crc32Base64 pl) ∈
          (write_events G S3 ser bucket prefixRaw endpoint dateFolder timeStr
            events).1 ∧ S3.uploadPart n pl = .error e) ∨
       (∃ ps, S3Call.complete ps ∈
          (write_events G S3 ser bucket prefixRaw endpoint dateFolder timeStr
            events).1 ∧ S3.complete ps = .error e))) ∧
    (∀ (n : Nat) (pl : List Nat) (c : String) (e : ε),
      S3Call.uploadPart n pl c ∈
        (write_events G S3 ser bucket prefixRaw endpoint dateFolder timeStr
          events).1 →
      S3.uploadPart n pl = .error e →
      (∀ ps, S3Call.complete ps ∉
        (write_events G S3 ser bucket prefixRaw endpoint dateFolder timeStr
          events).1) ∧
      (write_events G S3 ser bucket prefixRaw endpoint dateFolder timeStr
        events).2 = .error e) := by
  constructor
  · intro e hres
    obtain ⟨htr, hloop⟩ := write_events_error_spec G S3 ser bucket prefixRaw
      endpoint dateFolder timeStr events e hres
    have hpair : writeLoop G S3 ser G.init 1 [] events =
        ((writeLoop G S3 ser G.init 1 [] events).1, .error e) := by
      rw [← hloop]
    constructor
    · exact ⟨S3Call.createMultipart bucket (normPfx prefixRaw ++ endpoint ++ "/" ++
        dateFolder ++ "/" ++ (timeStr ++ ".jsonl.gz")) ::
        (writeLoop G S3 ser G.init 1 [] events).1, by rw [htr]⟩
    · rcases writeLoop_error_spec G S3 ser events G.init 1 [] _ e hpair
        with h1 | h2 | h3
      · exact Or.inl h1
      · obtain ⟨n, pl, hmem, hfail⟩ := h2
        refine Or.inr (Or.inl ⟨n, pl, ?_, hfail⟩)
        rw [htr]
        exact List.mem_cons_of_mem _ (List.mem_append_left _ hmem)
      · obtain ⟨ps, hmem, hfail⟩ := h3
        refine Or.inr (Or.inr ⟨ps, ?_, hfail⟩)
        rw [htr]
        exact List.mem_cons_of_mem _ (List.mem_append_left _ hmem)
  · intro n pl c e hmem hfail
    rcases hr : (write_events G S3 ser bucket prefixRaw endpoint dateFolder
        timeStr events).2 with e0 | k
    · obtain ⟨htr, hloop⟩ := write_events_error_spec G S3 ser bucket prefixRaw
        endpoint dateFolder timeStr events e0 hr
      rw [htr] at hmem
      rcases List.mem_cons.1 hmem with hh | hh
      · exact S3Call.noConfusion hh
      · rcases List.mem_append.1 hh with hh2 | hh2
        · obtain ⟨hnc, hres2⟩ := writeLoop_partfail_spec G S3 ser events
            G.init 1 [] n pl c e hh2 hfail
          constructor
          · intro ps hps
            rw [htr] at hps
            rcases List.mem_cons.1 hps with h1 | h1
            · exact S3Call.noConfusion h1
            · rcases List.mem_append.1 h1 with h2 | h2
              · exact hnc ps h2
              · exact S3Call.noConfusion (List.mem_singleton.1 h2)
          · have he : e0 = e := by
              rw [hres2] at hloop
              exact (Except.error.inj hloop).symm
            rw [he]
        · exact S3Call.noConfusion (List.mem_singleton.1 hh2)
    · exfalso
      obtain ⟨-, htr, partsF, hloop⟩ := write_events_ok_spec G S3 ser bucket
        prefixRaw endpoint dateFolder timeStr events k hr
      rw [htr] at hmem
      rcases List.mem_cons.1 hmem with hh | hh
      · exact S3Call.noConfusion hh
      · obtain ⟨-, hres2⟩ := writeLoop_partfail_spec G S3 ser events
          G.init 1 [] n pl c e hh hfail
        rw [hres2] at hloop
        exact Except.noConfusion hloop

/-- C4: on every successful `write_events` run the uploaded part numbers
are contiguous from 1 in call order; every upload call's checksum is
recomputable as `_crc32_base64` of exactly that part's payload; the one
completion call ends the trace and enumerates exactly the uploaded parts —
same numbers (hence ascending), same checksums, same sizes, and each part's
ETag equal to the acknowledgment the storage layer returned for that part's
physical upload call; and whenever
the stored object exceeds twice the part-size threshold (for a compressor
whose close step adds at most one threshold of buffered data and whose
fresh buffer starts below it), at least two parts were uploaded. -/
theorem write_parts_invariants {ε α : Type} (G : GzWriter) (S3 : S3Stub ε)
    (ser : α → List Nat) (bucket prefixRaw endpoint dateFolder timeStr : String)
    (events : List (Except ε α)) (key : String)
    (hres : (write_events G S3 ser bucket prefixRaw endpoint dateFolder timeStr
      events).2 = .ok key) :
    uploadedPartNos (write_events G S3 ser bucket prefixRaw endpoint dateFolder
        timeStr events).1 =
      List.range' 1 (uploadedPayloads (write_events G S3 ser bucket prefixRaw
        endpoint dateFolder timeStr events).1).length ∧
    (∀ n pl c, S3Call.uploadPart n pl c ∈ (write_events G S3 ser bucket prefixRaw
        endpoint dateFolder timeStr events).1 → c = crc32Base64 pl) ∧
    (∃ (t1 : List S3Call) (partsF : List PartInfo),
      (write_events G S3 ser bucket prefixRaw endpoint dateFolder
        timeStr events).1 = t1 ++ [S3Call.complete (partsF.map toCompleted)] ∧
      (∀ ps, S3Call.complete ps ∉ t1) ∧
      partsF.map PartInfo.partNumber = uploadedPartNos (write_events G S3 ser
        bucket prefixRaw endpoint dateFolder timeStr events).1 ∧
      partsF.map PartInfo.checksumCRC32 = (uploadedPayloads (write_events G S3
        ser bucket prefixRaw endpoint dateFolder timeStr events).1).map
          crc32Base64 ∧
      partsF.map PartInfo.size = (uploadedPayloads (write_events G S3 ser bucket
        prefixRaw endpoint dateFolder timeStr events).1).map List.length ∧
      partsF.map (fun p => Except.ok p.etag) =
        List.zipWith S3.uploadPart
          (uploadedPartNos (write_events G S3 ser bucket prefixRaw endpoint
            dateFolder timeStr events).1)
          (uploadedPayloads (write_events G S3 ser bucket prefixRaw endpoint
            dateFolder timeStr events).1)) ∧
    ((∀ s : G.σ, (G.close s).length ≤ G.tell s + PART_SIZE) →
      G.tell G.init < PART_SIZE →
      2 * PART_SIZE < ((uploadedPayloads (write_events G S3 ser bucket prefixRaw
        endpoint dateFolder timeStr events).1).map List.length).sum →
      2 ≤ (uploadedPayloads (write_events G S3 ser bucket prefixRaw endpoint
        dateFolder timeStr events).1).length) := by
  obtain ⟨hkey, htr, partsF, hloop⟩ := write_events_ok_spec G S3 ser bucket
    prefixRaw endpoint dateFolder timeStr events key hres
  have hpair : writeLoop G S3 ser (G.writeAll G.init []) 1 [] events =
      ((writeLoop G S3 ser G.init 1 [] events).1, .ok partsF) := by
    rw [G.writeAll_nil, ← hloop]
  obtain ⟨css, hcne, hpl, hflat, hnos, hcompl, hm1, hm2, hm3, hm4, hlast⟩ :=
    writeLoop_ok_spec G S3 ser events [] 1 [] _ partsF hpair
  refine ⟨?_, ?_, ?_, ?_⟩
  · rw [htr, uploadedPartNos_cons_create, uploadedPayloads_cons_create, hnos,
      hpl, List.length_map]
  · intro n pl c hmem
    rw [htr] at hmem
    rcases List.mem_cons.1 hmem with hh | hh
    · exact S3Call.noConfusion hh
    · exact writeLoop_checksum G S3 ser events _ _ _ n pl c hh
  · obtain ⟨t1, ht1, hnc⟩ := hcompl
    refine ⟨S3Call.createMultipart bucket key :: t1, partsF, ?_, ?_, ?_, ?_, ?_, ?_⟩
    · rw [htr, ht1]
      rfl
    · intro ps hps
      rcases List.mem_cons.1 hps with h1 | h1
      · exact S3Call.noConfusion h1
      · exact hnc ps h1
    · rw [htr, uploadedPartNos_cons_create]
      simpa using hm1
    · rw [htr, uploadedPayloads_cons_create]
      simpa using hm2
    · rw [htr, uploadedPayloads_cons_create]
      simpa using hm3
    · rw [htr, uploadedPartNos_cons_create, uploadedPayloads_cons_create]
      simpa using hm4
  · intro hslack hinit hsum
    by_contra hcon
    push_neg at hcon
    have hlen : (uploadedPayloads (write_events G S3 ser bucket prefixRaw
        endpoint dateFolder timeStr events).1).length = css.length := by
      rw [htr, uploadedPayloads_cons_create, hpl, List.length_map]
    have hclen : css.length = 1 := by
      have h0 : css.length ≠ 0 := fun h => hcne (List.length_eq_zero.1 h)
      omega
    obtain ⟨d, hd⟩ := List.length_eq_one.1 hclen
    rw [htr, uploadedPayloads_cons_create, hpl] at hsum
    rw [hd] at hsum
    simp only [List.map_cons, List.map_nil, List.sum_cons, List.sum_nil,
      Nat.add_zero] at hsum
    rcases hlast hclen with hl | hl
    · rw [hd] at hl
      rw [show ([d] : List (List (List Nat))).getLastD [] = d from rfl] at hl
      have := hslack (G.writeAll G.init d)
      omega
    · rw [hd] at hl
      rw [show ([d] : List (List (List Nat))).getLastD [] = d from rfl] at hl
      subst hl
      rw [G.writeAll_nil] at hsum
      have := hslack G.init
      omega

/-- C10: the key returned by a successful `write_events` is built from the
normalized prefix: for a non-empty configured prefix, the prefix is
stripped of all trailing slashes and followed by exactly one slash before
the endpoint segment (and the stripped prefix never ends in a slash); for
the empty prefix the key starts directly with the endpoint segment. -/
theorem write_key_norm {ε α : Type} (G : GzWriter) (S3 : S3Stub ε)
    (ser : α → List Nat) (bucket prefixRaw endpoint dateFolder timeStr : String)
    (events : List (Except ε α)) (key : String)
    (hres : (write_events G S3 ser bucket prefixRaw endpoint dateFolder timeStr
      events).2 = .ok key) :
    key = normPfx prefixRaw ++ endpoint ++ "/" ++ dateFolder ++ "/" ++
      (timeStr ++ ".jsonl.gz") ∧
    (prefixRaw ≠ "" →
      normPfx prefixRaw = String.mk (rstripSlashes prefixRaw.toList) ++ "/" ∧
      (rstripSlashes prefixRaw.toList).getLast? ≠ some '/') ∧
    (prefixRaw = "" → normPfx prefixRaw = "") := by
  obtain ⟨hkey, -, -⟩ := write_events_ok_spec G S3 ser bucket prefixRaw endpoint
    dateFolder timeStr events key hres
  refine ⟨hkey, fun hp => ⟨?_, rstripSlashes_getLast _⟩, fun hp => ?_⟩
  · rw [normPfx, if_neg hp]
  · rw [normPfx, if_pos hp]

/-! ## Concrete witnesses -/

theorem fetch_fifo_concat_witness :
    emittedRecords (fetchLoop (fun _ => (0 : Int)) 100 300 ⟨.initial 7, "idx"⟩ 0
        (okResponses ([([1], 0)] ++ [(([] : List Nat), 0)]))).1 =
      (([([1], 0)] ++ [(([] : List Nat), 0)]).map Prod.fst).flatten ∧
    ∃ tail : List (TraceEv Nat), (∀ r : Nat, TraceEv.emit r ∉ tail) ∧
      (fetchLoop (fun _ => (0 : Int)) 100 300 ⟨.initial 7, "idx"⟩ 0
        (okResponses ([([1], 0)] ++ [(([] : List Nat), 0)]))).1 =
      okTraceFull ⟨.initial 7, "idx"⟩ [([1], 0)] ++
        (TraceEv.request (contParams ⟨.initial 7, "idx"⟩ [([1], 0)]) ::
          (([] : List Nat)).map TraceEv.emit) ++ tail :=
  fetch_fifo_concat (fun _ => 0) 100 300 7 "idx" [([1], 0)] ([], 0)
    (by decide) (by decide) (by decide)

theorem fetch_budget_truncation_witness :
    (emittedRecords (fetchLoop (fun _ => (0 : Int)) 1 300 ⟨.initial 0, "i"⟩ 0
        (okResponses [([1], 0), ([2], 0)])).1 =
      ((([([1], 0), ([2], 0)] : List (List Nat × Int)).take 1).map
        Prod.fst).flatten ∧
      (fetchLoop (fun _ => (0 : Int)) 1 300 ⟨.initial 0, "i"⟩ 0
        (okResponses ([([1], 0), ([2], 0)] : List (List Nat × Int)))).2 =
          .pageLimit) ∧
    emittedRecords (fetchLoop (fun _ => (0 : Int)) 7 0 ⟨.initial 0, "i"⟩ 0
      (Response.ok [5] 0 :: ([] : List (Response Nat)))).1 = [5] :=
  ⟨(fetch_budget_truncation (α := Nat)).1 (fun _ => 0) 1 300 0 "i"
      [([1], 0), ([2], 0)] (by decide) (by decide) (by decide)
      (by intro k hk; omega),
   (fetch_budget_truncation (α := Nat)).2 (fun _ => 0) 7 ⟨.initial 0, "i"⟩
      [5] 0 [] monotone_const⟩

theorem fetch_transport_truncation_witness :
    emittedRecords (fetchLoop (fun _ => (0 : Int)) 100 300 ⟨.initial 7, "i"⟩ 0
        (okResponses [([3], 0)] ++ Response.transportError ::
          ([] : List (Response Nat)))).1 =
      (([([3], 0)] : List (List Nat × Int)).map Prod.fst).flatten ∧
    (fetchLoop (fun _ => (0 : Int)) 100 300 ⟨.initial 7, "i"⟩ 0
        (okResponses [([3], 0)] ++ Response.transportError ::
          ([] : List (Response Nat)))).2 = .transportFail :=
  fetch_transport_truncation (fun _ => 0) 100 300 7 "i" [([3], 0)] []
    (by decide) (by decide) (by decide)

theorem fetch_unsupported_category_witness :
    fetch_events (α := Nat) [("application", "/p")] (fun _ => 0) 1 1 "bogus"
        0 "i" [] = .error ("Unsupported endpoint: " ++ "bogus") ∧
    fetch_events (α := Nat) [("application", "/p")] (fun _ => 0) 1 1
        "application" 0 "i" [] =
      .ok (fetchLoop (fun _ => 0) 1 1 ⟨.initial 0, "i"⟩ 0 []) :=
  ⟨(fetch_unsupported_category (α := Nat)).1 [("application", "/p")]
      (fun _ => 0) 1 1 "bogus" 0 "i" [] (by decide),
   (fetch_unsupported_category (α := Nat)).2 [("application", "/p")]
      (fun _ => 0) 1 1 "application" 0 "i" [] "/p" (by decide)⟩

theorem write_roundtrip_witness :
    splitlines (id (uploadedPayloads (write_events idGz okS3
        (fun _ : Nat => [49]) "b" "p//" "alert" "2025/05/26" "050246"
        ([7].map Except.ok)).1).flatten) = [7].map (fun _ => [49]) ∧
    (([7] : List Nat) = [] →
      (uploadedPayloads (write_events idGz okS3 (fun _ : Nat => [49]) "b" "p//"
        "alert" "2025/05/26" "050246" ([7].map Except.ok)).1).length = 1) :=
  write_roundtrip idGz okS3 (fun _ => [49]) id "b" "p//" "alert" "2025/05/26"
    "050246" [7] "p/alert/2025/05/26/050246.jsonl.gz"
    (by
      intro css
      simp only [id_eq, idGz, GzWriter.writeAll, foldl_append_flatten,
        List.nil_append]
      exact (List.flatten_flatten).symm)
    (fun _ => (by decide : (10 : Nat) ∉ [49])) (by rfl)

theorem write_abort_on_error_witness :
    ((∃ t1, (write_events idGz failS3 (fun _ : Nat => [49]) "b" "" "alert"
        "2025/05/26" "050246" [Except.ok 1]).1 = t1 ++ [S3Call.abort]) ∧
      (Except.error () ∈ [Except.ok (1 : Nat)] ∨
       (∃ n pl, S3Call.uploadPart n pl (crc32Base64 pl) ∈
          (write_events idGz failS3 (fun _ : Nat => [49]) "b" "" "alert"
            "2025/05/26" "050246" [Except.ok 1]).1 ∧
          failS3.uploadPart n pl = .error ()) ∨
       (∃ ps, S3Call.complete ps ∈
          (write_events idGz failS3 (fun _ : Nat => [49]) "b" "" "alert"
            "2025/05/26" "050246" [Except.ok 1]).1 ∧
          failS3.complete ps = .error ()))) ∧
    ((∀ ps, S3Call.complete ps ∉
        (write_events idGz failS3 (fun _ : Nat => [49]) "b" "" "alert"
          "2025/05/26" "050246" [Except.ok 1]).1) ∧
      (write_events idGz failS3 (fun _ : Nat => [49]) "b" "" "alert"
        "2025/05/26" "050246" [Except.ok 1]).2 = .error ()) :=
  ⟨(write_abort_on_error idGz failS3 (fun _ => [49]) "b" "" "alert" "2025/05/26"
      "050246" [Except.ok 1]).1 () (by rfl),
   (write_abort_on_error idGz failS3 (fun _ => [49]) "b" "" "alert" "2025/05/26"
      "050246" [Except.ok 1]).2 1 [49, 10] (crc32Base64 [49, 10]) ()
      (by decide) (by rfl)⟩

theorem write_parts_invariants_witness :
    uploadedPartNos (write_events idGz okS3 (fun _ : Nat => [49]) "b" "p//"
        "alert" "2025/05/26" "050246" [Except.ok 1]).1 =
      List.range' 1 (uploadedPayloads (write_events idGz okS3
        (fun _ : Nat => [49]) "b" "p//" "alert" "2025/05/26" "050246"
        [Except.ok 1]).1).length ∧
    (∀ n pl c, S3Call.uploadPart n pl c ∈ (write_events idGz okS3
        (fun _ : Nat => [49]) "b" "p//" "alert" "2025/05/26" "050246"
        [Except.ok 1]).1 → c = crc32Base64 pl) ∧
    (∃ (t1 : List S3Call) (partsF : List PartInfo),
      (write_events idGz okS3 (fun _ : Nat => [49]) "b" "p//" "alert"
        "2025/05/26" "050246" [Except.ok 1]).1 =
        t1 ++ [S3Call.complete (partsF.map toCompleted)] ∧
      (∀ ps, S3Call.complete ps ∉ t1) ∧
      partsF.map PartInfo.partNumber = uploadedPartNos (write_events idGz okS3
        (fun _ : Nat => [49]) "b" "p//" "alert" "2025/05/26" "050246"
        [Except.ok 1]).1 ∧
      partsF.map PartInfo.checksumCRC32 = (uploadedPayloads (write_events idGz
        okS3 (fun _ : Nat => [49]) "b" "p//" "alert" "2025/05/26" "050246"
        [Except.ok 1]).1).map crc32Base64 ∧
      partsF.map PartInfo.size = (uploadedPayloads (write_events idGz okS3
        (fun _ : Nat => [49]) "b" "p//" "alert" "2025/05/26" "050246"
        [Except.ok 1]).1).map List.length ∧
      partsF.map (fun p => Except.ok p.etag) =
        List.zipWith okS3.uploadPart
          (uploadedPartNos (write_events idGz okS3 (fun _ : Nat => [49]) "b"
            "p//" "alert" "2025/05/26" "050246" [Except.ok 1]).1)
          (uploadedPayloads (write_events idGz okS3 (fun _ : Nat => [49]) "b"
            "p//" "alert" "2025/05/26" "050246" [Except.ok 1]).1)) ∧
    ((∀ s : idGz.σ, (idGz.close s).length ≤ idGz.tell s + PART_SIZE) →
      idGz.tell idGz.init < PART_SIZE →
      2 * PART_SIZE < ((uploadedPayloads (write_events idGz okS3
        (fun _ : Nat => [49]) "b" "p//" "alert" "2025/05/26" "050246"
        [Except.ok 1]).1).map List.length).sum →
      2 ≤ (uploadedPayloads (write_events idGz okS3 (fun _ : Nat => [49]) "b"
        "p//" "alert" "2025/05/26" "050246" [Except.ok 1]).1).length) :=
  write_parts_invariants idGz okS3 (fun _ => [49]) "b" "p//" "alert"
    "2025/05/26" "050246" [Except.ok 1] "p/alert/2025/05/26/050246.jsonl.gz"
    (by rfl)

theorem write_key_norm_witness :
    "p/alert/2025/05/26/050246.jsonl.gz" = normPfx "p//" ++ "alert" ++ "/" ++
      "2025/05/26" ++ "/" ++ ("050246" ++ ".jsonl.gz") ∧
    ("p//" ≠ "" →
      normPfx "p//" = String.mk (rstripSlashes "p//".toList) ++ "/" ∧
      (rstripSlashes "p//".toList).getLast? ≠ some '/') ∧
    ("p//" = "" → normPfx "p//" = "") :=
  write_key_norm idGz okS3 (fun _ : Nat => [49]) "b" "p//" "alert" "2025/05/26"
    "050246" [Except.ok 1] "p/alert/2025/05/26/050246.jsonl.gz" (by rfl)

end NetskopeCollector
